import Mathlib

/-!
Verification development for the linear algebra kernel declared in
src/Utils/linearalgebra.h (vector3 operations and the row-major Matrix_t
operation family). The repository ships only the header; the function
bodies are modelled from the design document, faithful to its wording.
Scalars are idealized as exact rationals, and as real numbers for the
operations that need a square root.
-/

/-- Model of the Matrix_t struct from linearalgebra.h: number of rows,
number of columns, and the row-major data buffer. -/
structure Matrix_t where
  numRows : Nat
  numCols : Nat
  data : List ℚ
deriving DecidableEq, Repr

/-- The data-model invariant from the design document: the buffer length is
exactly numRows * numCols. -/
def WellFormed (M : Matrix_t) : Prop :=
  M.data.length = M.numRows * M.numCols

/-- Row-major lookup of element (row, col); reads outside the buffer give the
default 0, mirroring that out-of-range access is a caller-contract matter. -/
def matrixGet (M : Matrix_t) (row col : Nat) : ℚ :=
  M.data.getD (row * M.numCols + col) 0

/-- Build a row-major buffer of the given shape whose (r, c) element is f r c. -/
def mkData (rows cols : Nat) (f : Nat → Nat → ℚ) : List ℚ :=
  (List.range (rows * cols)).map (fun k => f (k / cols) (k % cols))

/-- Accumulation loop Sum of f k for k below n, as used by the multiply family. -/
def dotLoop (n : Nat) (f : Nat → ℚ) : ℚ :=
  ((List.range n).map f).sum

/-- Modelled from the spec: body of matrixZero is missing from src; sets every
element of M to zero. -/
def matrixZero (M : Matrix_t) : Matrix_t :=
  { M with data := mkData M.numRows M.numCols (fun _ _ => 0) }

/-- Modelled from the spec: body of matrixSetIdentity is missing from src; sets
diagonal elements (i, i) to 1 and all other elements to 0, the diagonal
extending up to min(rows, cols). -/
def matrixSetIdentity (M : Matrix_t) : Matrix_t :=
  { M with data := mkData M.numRows M.numCols (fun r c => if r = c then 1 else 0) }

/-- Modelled from the spec: body of matrixCopy is missing from src; succeeds only
when A and B have identical dimensions, otherwise fails leaving B unmodified. -/
def matrixCopy (A B : Matrix_t) : Bool × Matrix_t :=
  if A.numRows = B.numRows ∧ A.numCols = B.numCols then
    (true, { B with data := mkData B.numRows B.numCols (fun r c => matrixGet A r c) })
  else (false, B)

/-- Modelled from the spec: body of matrixMultiply is missing from src; standard
triple-loop product C = A * B, requiring A.numCols = B.numRows and C of shape
(A.numRows, B.numCols); fails leaving C unmodified otherwise. -/
def matrixMultiply (A B C : Matrix_t) : Bool × Matrix_t :=
  if A.numCols = B.numRows ∧ C.numRows = A.numRows ∧ C.numCols = B.numCols then
    let d := mkData C.numRows C.numCols
      (fun i j => dotLoop A.numCols (fun k => matrixGet A i k * matrixGet B k j))
    (true, { C with data := d })
  else (false, C)

/-- Modelled from the spec: body of matrixMultiplyTransA is missing from src;
computes transpose(A) * B without materializing the transpose, requiring
A.numRows = B.numRows and C of shape (A.numCols, B.numCols). -/
def matrixMultiplyTransA (A B C : Matrix_t) : Bool × Matrix_t :=
  if A.numRows = B.numRows ∧ C.numRows = A.numCols ∧ C.numCols = B.numCols then
    let d := mkData C.numRows C.numCols
      (fun i j => dotLoop A.numRows (fun k => matrixGet A k i * matrixGet B k j))
    (true, { C with data := d })
  else (false, C)

/-- Modelled from the spec: body of matrixMultiplyTransB is missing from src;
computes A * transpose(B), requiring A.numCols = B.numCols and C of shape
(A.numRows, B.numRows). -/
def matrixMultiplyTransB (A B C : Matrix_t) : Bool × Matrix_t :=
  if A.numCols = B.numCols ∧ C.numRows = A.numRows ∧ C.numCols = B.numRows then
    let d := mkData C.numRows C.numCols
      (fun i j => dotLoop A.numCols (fun k => matrixGet A i k * matrixGet B j k))
    (true, { C with data := d })
  else (false, C)

/-- Modelled from the spec: body of matrixAdd is missing from src; element-wise
sum into C, requiring all three operands to share dimensions. -/
def matrixAdd (A B C : Matrix_t) : Bool × Matrix_t :=
  if A.numRows = B.numRows ∧ A.numCols = B.numCols ∧
      C.numRows = A.numRows ∧ C.numCols = A.numCols then
    let d := mkData C.numRows C.numCols (fun r c => matrixGet A r c + matrixGet B r c)
    (true, { C with data := d })
  else (false, C)

/-- Modelled from the spec: body of matrixAddEquals is missing from src;
element-wise sum placed back into A, requiring matching dimensions. -/
def matrixAddEquals (A B : Matrix_t) : Bool × Matrix_t :=
  if A.numRows = B.numRows ∧ A.numCols = B.numCols then
    let d := mkData A.numRows A.numCols (fun r c => matrixGet A r c + matrixGet B r c)
    (true, { A with data := d })
  else (false, A)

/-- Modelled from the spec: body of matrixScale is missing from src; multiplies
every element in place, always succeeding. -/
def matrixScale (A : Matrix_t) (scalar : ℚ) : Matrix_t :=
  { A with data := mkData A.numRows A.numCols (fun r c => matrixGet A r c * scalar) }

/-- Modelled from the spec: body of matrixAverage is missing from src; computes
(A + B) * 0.5 into C, requiring matching dimensions. -/
def matrixAverage (A B C : Matrix_t) : Bool × Matrix_t :=
  if A.numRows = B.numRows ∧ A.numCols = B.numCols ∧
      C.numRows = A.numRows ∧ C.numCols = A.numCols then
    let d := mkData C.numRows C.numCols
      (fun r c => (matrixGet A r c + matrixGet B r c) * (1 / 2))
    (true, { C with data := d })
  else (false, C)

/-- Modelled from the spec: body of matrixAddIdentity is missing from src; adds
1 to each diagonal element. -/
def matrixAddIdentity (A : Matrix_t) : Matrix_t :=
  { A with data := mkData A.numRows A.numCols fun r c => matrixGet A r c + if r = c then 1 else 0 }

/-- Modelled from the spec: body of matrixMinusIdentity is missing from src;
subtracts 1 from each diagonal element. -/
def matrixMinusIdentity (A : Matrix_t) : Matrix_t :=
  { A with data := mkData A.numRows A.numCols fun r c => matrixGet A r c - if r = c then 1 else 0 }

/-- Modelled from the spec: body of matrixIdentityMinus is missing from src;
computes identity minus A in place. -/
def matrixIdentityMinus (A : Matrix_t) : Matrix_t :=
  { A with data := mkData A.numRows A.numCols fun r c => (if r = c then 1 else 0) - matrixGet A r c }

/-- Modelled from the spec: body of matrixDotRows is missing from src; dot
product of two rows of the same matrix. -/
def matrixDotRows (A : Matrix_t) (rowA rowB : Nat) : ℚ :=
  dotLoop A.numCols (fun k => matrixGet A rowA k * matrixGet A rowB k)

/-- Modelled from the spec: body of matrixTranspose is missing from src;
requires B.numRows = A.numCols and B.numCols = A.numRows, fails leaving B
unmodified otherwise. -/
def matrixTranspose (A B : Matrix_t) : Bool × Matrix_t :=
  if B.numRows = A.numCols ∧ B.numCols = A.numRows then
    (true, { B with data := mkData B.numRows B.numCols (fun r c => matrixGet A c r) })
  else (false, B)

/-- Modelled from the spec: the safety epsilon against which the inversion
routine checks the determinant magnitude; the design document suggests 1e-12
for double precision. -/
def MATRIX_EPS : ℚ := 1 / 10 ^ 12

/-- Modelled from the spec: the determinant used by matrixInverse, by dimension:
trivial for 1x1, a*d - b*c for 2x2, cofactor expansion for 3x3. -/
def matrixDet (A : Matrix_t) : ℚ :=
  if A.numRows = 1 then matrixGet A 0 0
  else if A.numRows = 2 then
    matrixGet A 0 0 * matrixGet A 1 1 - matrixGet A 0 1 * matrixGet A 1 0
  else
    matrixGet A 0 0 * (matrixGet A 1 1 * matrixGet A 2 2 - matrixGet A 1 2 * matrixGet A 2 1)
    - matrixGet A 0 1 * (matrixGet A 1 0 * matrixGet A 2 2 - matrixGet A 1 2 * matrixGet A 2 0)
    + matrixGet A 0 2 * (matrixGet A 1 0 * matrixGet A 2 1 - matrixGet A 1 1 * matrixGet A 2 0)

/-- Index pair of the 2x2 minor obtained by deleting index i from 0, 1, 2. -/
def minorIdx (i : Nat) : Nat × Nat :=
  (if i = 0 then 1 else 0, if i = 2 then 1 else 2)

/-- Modelled from the spec: the (i, j) cofactor of a 3x3 matrix, sign times the
determinant of the minor with row i and column j removed. -/
def cofactor3 (A : Matrix_t) (i j : Nat) : ℚ :=
  (-1 : ℚ) ^ (i + j) *
    (matrixGet A (minorIdx i).1 (minorIdx j).1 * matrixGet A (minorIdx i).2 (minorIdx j).2
      - matrixGet A (minorIdx i).1 (minorIdx j).2 * matrixGet A (minorIdx i).2 (minorIdx j).1)

/-- Modelled from the spec: entry (r, c) written by matrixInverse, by dimension:
reciprocal for 1x1, adjugate over determinant for 2x2, transposed cofactor
matrix over determinant for 3x3. -/
def invEntry (A : Matrix_t) (det : ℚ) (r c : Nat) : ℚ :=
  if A.numRows = 1 then 1 / det
  else if A.numRows = 2 then
    (if r = 0 then (if c = 0 then matrixGet A 1 1 else -matrixGet A 0 1)
     else (if c = 0 then -matrixGet A 1 0 else matrixGet A 0 0)) / det
  else cofactor3 A c r / det

/-- Modelled from the spec: body of matrixInverse is missing from src; closed
form inverse for square matrices of dimension 1 to 3, failing on non-square or
larger input and on determinant magnitude below the safety epsilon, leaving B
unmodified on failure. -/
def matrixInverse (A B : Matrix_t) : Bool × Matrix_t :=
  if A.numRows = A.numCols ∧ 1 ≤ A.numRows ∧ A.numRows ≤ 3 then
    if MATRIX_EPS ≤ |matrixDet A| then
      let d := mkData A.numRows A.numCols (fun r c => invEntry A (matrixDet A) r c)
      (true, { B with data := d })
    else (false, B)
  else (false, B)

/-- Modelled from the spec: body of testForIdentity is missing from src; sum of
squared deviations of every element from the identity pattern. -/
def testForIdentity (M : Matrix_t) : ℚ :=
  ((List.range (M.numRows * M.numCols)).map (fun k =>
    (matrixGet M (k / M.numCols) (k % M.numCols)
        - (if k / M.numCols = k % M.numCols then 1 else 0)) ^ 2)).sum

/-- Three dimensional rational vector, indexed X = 0, Y = 1, Z = 2. -/
abbrev QVector3 := Fin 3 → ℚ

/-- Modelled from the spec: body of vector3Dot is missing from src; sum of
componentwise products. -/
def vector3Dot (a b : QVector3) : ℚ :=
  a 0 * b 0 + a 1 * b 1 + a 2 * b 2

/-- Modelled from the spec: body of vector3Cross is missing from src; the
standard cross product with indices cycling mod 3. -/
def vector3Cross (left right : QVector3) : QVector3 :=
  fun i => left (i + 1) * right (i + 2) - left (i + 2) * right (i + 1)

/-- Three dimensional real vector, for the length and normalization family. -/
abbrev RVector3 := Fin 3 → ℝ

/-- Modelled from the spec: body of vector3LengthSquared is missing from src;
sum of squared components. -/
noncomputable def vector3LengthSquared (v : RVector3) : ℝ :=
  v 0 * v 0 + v 1 * v 1 + v 2 * v 2

/-- Modelled from the spec: body of vector3Length is missing from src; square
root of the squared length. -/
noncomputable def vector3Length (v : RVector3) : ℝ :=
  Real.sqrt (vector3LengthSquared v)

/-- Modelled from the spec: body of vector3Scale is missing from src; scales
each component. -/
noncomputable def vector3Scale (v : RVector3) (scale : ℝ) : RVector3 :=
  fun i => v i * scale

/-- Modelled from the spec: body of vector3Unit is missing from src; scales the
vector by the reciprocal of its length, with no guard for zero length. -/
noncomputable def vector3Unit (v : RVector3) : RVector3 :=
  vector3Scale v (1 / vector3Length v)

theorem row_major_lt {r c rows cols : Nat} (hr : r < rows) (hc : c < cols) :
    r * cols + c < rows * cols := by
  calc r * cols + c < r * cols + cols := Nat.add_lt_add_left hc _
    _ = (r + 1) * cols := by ring
    _ ≤ rows * cols := Nat.mul_le_mul_right cols (Nat.succ_le_of_lt hr)

theorem mkData_getD (rows cols : Nat) (f : Nat → Nat → ℚ) (r c : Nat)
    (hr : r < rows) (hc : c < cols) :
    (mkData rows cols f).getD (r * cols + c) 0 = f r c := by
  have hcpos : 0 < cols := lt_of_le_of_lt (Nat.zero_le c) hc
  have hidx : r * cols + c < rows * cols := row_major_lt hr hc
  have hlen : r * cols + c < (mkData rows cols f).length := by
    simpa [mkData] using hidx
  rw [List.getD_eq_getElem _ _ hlen]
  simp only [mkData, List.getElem_map, List.getElem_range]
  have h1 : r * cols + c = cols * r + c := by ring
  congr 1
  · rw [h1, Nat.mul_add_div hcpos, Nat.div_eq_of_lt hc]
    omega
  · rw [h1, Nat.mul_add_mod, Nat.mod_eq_of_lt hc]

theorem matrixGet_write (M : Matrix_t) (f : Nat → Nat → ℚ) (r c : Nat)
    (hr : r < M.numRows) (hc : c < M.numCols) :
    matrixGet { M with data := mkData M.numRows M.numCols f } r c = f r c := by
  simpa [matrixGet] using mkData_getD M.numRows M.numCols f r c hr hc

/-- C6: vector3Cross computes the standard cross product formula with indices
cycling mod 3; consequently it is antisymmetric, its result is orthogonal to
the first argument under vector3Dot, and crossing the X unit vector with the Y
unit vector gives the Z unit vector. -/
theorem C6_vector3Cross_props :
    (∀ a b : QVector3,
      (∀ i : Fin 3, vector3Cross a b i = a (i + 1) * b (i + 2) - a (i + 2) * b (i + 1)) ∧
      vector3Cross a b = (fun i => -vector3Cross b a i) ∧
      vector3Dot a (vector3Cross a b) = 0) ∧
    vector3Cross ![1, 0, 0] ![0, 1, 0] = ![0, 0, 1] := by
  refine ⟨fun a b => ⟨fun i => rfl, ?_, ?_⟩, ?_⟩
  · funext i
    show a (i + 1) * b (i + 2) - a (i + 2) * b (i + 1) =
      -(b (i + 1) * a (i + 2) - b (i + 2) * a (i + 1))
    ring
  · show a 0 * (a (0 + 1) * b (0 + 2) - a (0 + 2) * b (0 + 1))
        + a 1 * (a (1 + 1) * b (1 + 2) - a (1 + 2) * b (1 + 1))
        + a 2 * (a (2 + 1) * b (2 + 2) - a (2 + 2) * b (2 + 1)) = 0
    have h01 : (0 : Fin 3) + 1 = 1 := rfl
    have h02 : (0 : Fin 3) + 2 = 2 := rfl
    have h11 : (1 : Fin 3) + 1 = 2 := rfl
    have h12 : (1 : Fin 3) + 2 = 0 := rfl
    have h21 : (2 : Fin 3) + 1 = 0 := rfl
    have h22 : (2 : Fin 3) + 2 = 1 := rfl
    rw [h01, h02, h11, h12, h21, h22]
    ring
  · funext i
    fin_cases i <;> simp [vector3Cross]

/-- C7: matrixSetIdentity writes 1 at every diagonal position (i, i) with i
below min(numRows, numCols) and 0 at every other valid position, on square and
non-square matrices alike. -/
theorem C7_matrixSetIdentity_pattern (M : Matrix_t) :
    (∀ i, i < min M.numRows M.numCols → matrixGet (matrixSetIdentity M) i i = 1) ∧
    (∀ r c, r < M.numRows → c < M.numCols → r ≠ c →
      matrixGet (matrixSetIdentity M) r c = 0) := by
  constructor
  · intro i hi
    have h := matrixGet_write M (fun r c => if r = c then (1 : ℚ) else 0) i i
      (by omega) (by omega)
    simpa [matrixSetIdentity] using h
  · intro r c hr hc hne
    have h := matrixGet_write M (fun r c => if r = c then (1 : ℚ) else 0) r c hr hc
    simp only [matrixSetIdentity] at h ⊢
    rw [h, if_neg hne]

/-- C7 witness at a concrete 2x3 matrix. -/
theorem C7_matrixSetIdentity_pattern_witness :
    matrixGet (matrixSetIdentity ⟨2, 3, [9, 9, 9, 9, 9, 9]⟩) 1 1 = 1 ∧
    matrixGet (matrixSetIdentity ⟨2, 3, [9, 9, 9, 9, 9, 9]⟩) 0 2 = 0 :=
  ⟨(C7_matrixSetIdentity_pattern ⟨2, 3, [9, 9, 9, 9, 9, 9]⟩).1 1 (by decide),
   (C7_matrixSetIdentity_pattern ⟨2, 3, [9, 9, 9, 9, 9, 9]⟩).2 0 2 (by decide) (by decide)
     (by decide)⟩

/-- C9: every matrix operation preserves the numRows and numCols fields of the
matrix it writes; only the data buffer changes, so the shape fixed at
construction is an invariant across all library calls. -/
theorem C9_dims_invariant (A B C : Matrix_t) (s : ℚ) :
    ((matrixZero A).numRows = A.numRows ∧ (matrixZero A).numCols = A.numCols) ∧
    ((matrixSetIdentity A).numRows = A.numRows ∧ (matrixSetIdentity A).numCols = A.numCols) ∧
    ((matrixCopy A B).2.numRows = B.numRows ∧ (matrixCopy A B).2.numCols = B.numCols) ∧
    ((matrixMultiply A B C).2.numRows = C.numRows ∧
      (matrixMultiply A B C).2.numCols = C.numCols) ∧
    ((matrixMultiplyTransA A B C).2.numRows = C.numRows ∧
      (matrixMultiplyTransA A B C).2.numCols = C.numCols) ∧
    ((matrixMultiplyTransB A B C).2.numRows = C.numRows ∧
      (matrixMultiplyTransB A B C).2.numCols = C.numCols) ∧
    ((matrixAdd A B C).2.numRows = C.numRows ∧ (matrixAdd A B C).2.numCols = C.numCols) ∧
    ((matrixAddEquals A B).2.numRows = A.numRows ∧
      (matrixAddEquals A B).2.numCols = A.numCols) ∧
    ((matrixScale A s).numRows = A.numRows ∧ (matrixScale A s).numCols = A.numCols) ∧
    ((matrixAverage A B C).2.numRows = C.numRows ∧
      (matrixAverage A B C).2.numCols = C.numCols) ∧
    ((matrixAddIdentity A).numRows = A.numRows ∧
      (matrixAddIdentity A).numCols = A.numCols) ∧
    ((matrixMinusIdentity A).numRows = A.numRows ∧
      (matrixMinusIdentity A).numCols = A.numCols) ∧
    ((matrixIdentityMinus A).numRows = A.numRows ∧
      (matrixIdentityMinus A).numCols = A.numCols) ∧
    ((matrixTranspose A B).2.numRows = B.numRows ∧
      (matrixTranspose A B).2.numCols = B.numCols) ∧
    ((matrixInverse A B).2.numRows = B.numRows ∧
      (matrixInverse A B).2.numCols = B.numCols) := by
  refine ⟨⟨rfl, rfl⟩, ⟨rfl, rfl⟩, ?_, ?_, ?_, ?_, ?_, ?_, ⟨rfl, rfl⟩, ?_, ⟨rfl, rfl⟩,
    ⟨rfl, rfl⟩, ⟨rfl, rfl⟩, ?_, ?_⟩
  all_goals
    refine ⟨?_, ?_⟩ <;>
      (simp only [matrixCopy, matrixMultiply, matrixMultiplyTransA, matrixMultiplyTransB,
        matrixAdd, matrixAddEquals, matrixAverage, matrixTranspose, matrixInverse]
       split <;> first | rfl | (split <;> rfl))

/-- C4: each dimension-checked operation, called on incompatible operand
dimensions, returns false and hands back the destination matrix completely
unchanged. -/
theorem C4_mismatch_leaves_dest (A B C : Matrix_t) :
    (¬(A.numRows = B.numRows ∧ A.numCols = B.numCols) → matrixCopy A B = (false, B)) ∧
    (¬(A.numRows = B.numRows ∧ A.numCols = B.numCols ∧
        C.numRows = A.numRows ∧ C.numCols = A.numCols) → matrixAdd A B C = (false, C)) ∧
    (¬(A.numRows = B.numRows ∧ A.numCols = B.numCols) → matrixAddEquals A B = (false, A)) ∧
    (¬(A.numRows = B.numRows ∧ A.numCols = B.numCols ∧
        C.numRows = A.numRows ∧ C.numCols = A.numCols) → matrixAverage A B C = (false, C)) ∧
    (¬(A.numCols = B.numRows ∧ C.numRows = A.numRows ∧ C.numCols = B.numCols) →
      matrixMultiply A B C = (false, C)) ∧
    (¬(A.numRows = B.numRows ∧ C.numRows = A.numCols ∧ C.numCols = B.numCols) →
      matrixMultiplyTransA A B C = (false, C)) ∧
    (¬(A.numCols = B.numCols ∧ C.numRows = A.numRows ∧ C.numCols = B.numRows) →
      matrixMultiplyTransB A B C = (false, C)) ∧
    (¬(B.numRows = A.numCols ∧ B.numCols = A.numRows) → matrixTranspose A B = (false, B)) := by
  refine ⟨?_, ?_, ?_, ?_, ?_, ?_, ?_, ?_⟩ <;> intro h <;>
    simp only [matrixCopy, matrixAdd, matrixAddEquals, matrixAverage, matrixMultiply,
      matrixMultiplyTransA, matrixMultiplyTransB, matrixTranspose] <;>
    rw [if_neg h]

/-- C4 witness at concrete mismatched shapes for every operation. -/
theorem C4_mismatch_leaves_dest_witness :
    matrixCopy ⟨2, 3, [1, 2, 3, 4, 5, 6]⟩ ⟨3, 2, [1, 2, 3, 4, 5, 6]⟩ =
      (false, ⟨3, 2, [1, 2, 3, 4, 5, 6]⟩) ∧
    matrixAdd ⟨2, 3, [1, 2, 3, 4, 5, 6]⟩ ⟨3, 2, [1, 2, 3, 4, 5, 6]⟩ ⟨2, 2, [1, 2, 3, 4]⟩ =
      (false, ⟨2, 2, [1, 2, 3, 4]⟩) ∧
    matrixAddEquals ⟨2, 3, [1, 2, 3, 4, 5, 6]⟩ ⟨3, 2, [1, 2, 3, 4, 5, 6]⟩ =
      (false, ⟨2, 3, [1, 2, 3, 4, 5, 6]⟩) ∧
    matrixAverage ⟨2, 3, [1, 2, 3, 4, 5, 6]⟩ ⟨3, 2, [1, 2, 3, 4, 5, 6]⟩ ⟨2, 2, [1, 2, 3, 4]⟩ =
      (false, ⟨2, 2, [1, 2, 3, 4]⟩) ∧
    matrixMultiply ⟨2, 3, [1, 2, 3, 4, 5, 6]⟩ ⟨3, 2, [1, 2, 3, 4, 5, 6]⟩
      ⟨3, 3, [1, 2, 3, 4, 5, 6, 7, 8, 9]⟩ = (false, ⟨3, 3, [1, 2, 3, 4, 5, 6, 7, 8, 9]⟩) ∧
    matrixMultiplyTransA ⟨2, 3, [1, 2, 3, 4, 5, 6]⟩ ⟨3, 2, [1, 2, 3, 4, 5, 6]⟩
      ⟨2, 2, [1, 2, 3, 4]⟩ = (false, ⟨2, 2, [1, 2, 3, 4]⟩) ∧
    matrixMultiplyTransB ⟨2, 3, [1, 2, 3, 4, 5, 6]⟩ ⟨3, 2, [1, 2, 3, 4, 5, 6]⟩
      ⟨2, 2, [1, 2, 3, 4]⟩ = (false, ⟨2, 2, [1, 2, 3, 4]⟩) ∧
    matrixTranspose ⟨2, 3, [1, 2, 3, 4, 5, 6]⟩ ⟨2, 2, [1, 2, 3, 4]⟩ =
      (false, ⟨2, 2, [1, 2, 3, 4]⟩) :=
  ⟨(C4_mismatch_leaves_dest ⟨2, 3, [1, 2, 3, 4, 5, 6]⟩ ⟨3, 2, [1, 2, 3, 4, 5, 6]⟩
      ⟨2, 2, [1, 2, 3, 4]⟩).1 (by decide),
   (C4_mismatch_leaves_dest ⟨2, 3, [1, 2, 3, 4, 5, 6]⟩ ⟨3, 2, [1, 2, 3, 4, 5, 6]⟩
      ⟨2, 2, [1, 2, 3, 4]⟩).2.1 (by decide),
   (C4_mismatch_leaves_dest ⟨2, 3, [1, 2, 3, 4, 5, 6]⟩ ⟨3, 2, [1, 2, 3, 4, 5, 6]⟩
      ⟨2, 2, [1, 2, 3, 4]⟩).2.2.1 (by decide),
   (C4_mismatch_leaves_dest ⟨2, 3, [1, 2, 3, 4, 5, 6]⟩ ⟨3, 2, [1, 2, 3, 4, 5, 6]⟩
      ⟨2, 2, [1, 2, 3, 4]⟩).2.2.2.1 (by decide),
   (C4_mismatch_leaves_dest ⟨2, 3, [1, 2, 3, 4, 5, 6]⟩ ⟨3, 2, [1, 2, 3, 4, 5, 6]⟩
      ⟨3, 3, [1, 2, 3, 4, 5, 6, 7, 8, 9]⟩).2.2.2.2.1 (by decide),
   (C4_mismatch_leaves_dest ⟨2, 3, [1, 2, 3, 4, 5, 6]⟩ ⟨3, 2, [1, 2, 3, 4, 5, 6]⟩
      ⟨2, 2, [1, 2, 3, 4]⟩).2.2.2.2.2.1 (by decide),
   (C4_mismatch_leaves_dest ⟨2, 3, [1, 2, 3, 4, 5, 6]⟩ ⟨3, 2, [1, 2, 3, 4, 5, 6]⟩
      ⟨2, 2, [1, 2, 3, 4]⟩).2.2.2.2.2.2.1 (by decide),
   (C4_mismatch_leaves_dest ⟨2, 3, [1, 2, 3, 4, 5, 6]⟩ ⟨2, 2, [1, 2, 3, 4]⟩
      ⟨2, 2, [1, 2, 3, 4]⟩).2.2.2.2.2.2.2 (by decide)⟩

/-- C8: vector3Unit is exactly vector3Scale by the reciprocal length, with no
guard for zero length, and whenever the squared length is positive the
normalized vector has squared length exactly 1 in the real-number model. -/
theorem C8_vector3Unit_normalizes (v : RVector3) (h : 0 < vector3LengthSquared v) :
    vector3Unit v = vector3Scale v (1 / vector3Length v) ∧
    vector3LengthSquared (vector3Unit v) = 1 := by
  refine ⟨rfl, ?_⟩
  have hs : Real.sqrt (vector3LengthSquared v) * Real.sqrt (vector3LengthSquared v)
      = vector3LengthSquared v := Real.mul_self_sqrt h.le
  have hsne : Real.sqrt (vector3LengthSquared v) ≠ 0 := by
    intro h0
    rw [h0, mul_zero] at hs
    exact absurd hs.symm (ne_of_gt h)
  show vector3LengthSquared (vector3Scale v (1 / vector3Length v)) = 1
  simp only [vector3LengthSquared, vector3Scale, vector3Length] at *
  field_simp

/-- C8 witness at the concrete vector (3, 4, 0). -/
theorem C8_vector3Unit_normalizes_witness :
    0 < vector3LengthSquared ![3, 4, 0] ∧
    (vector3Unit ![3, 4, 0] = vector3Scale ![3, 4, 0] (1 / vector3Length ![3, 4, 0]) ∧
      vector3LengthSquared (vector3Unit ![3, 4, 0]) = 1) :=
  ⟨by norm_num [vector3LengthSquared],
   C8_vector3Unit_normalizes ![3, 4, 0] (by norm_num [vector3LengthSquared])⟩

theorem mkData_congr {rows cols : Nat} {f g : Nat → Nat → ℚ}
    (h : ∀ r c, r < rows → c < cols → f r c = g r c) :
    mkData rows cols f = mkData rows cols g := by
  unfold mkData
  apply List.map_congr_left
  intro k hk
  have hk2 : k < rows * cols := List.mem_range.mp hk
  have hcpos : 0 < cols := by
    rcases Nat.eq_zero_or_pos cols with h0 | h0
    · rw [h0, Nat.mul_zero] at hk2
      omega
    · exact h0
  have hk3 : k < cols * rows := by rwa [Nat.mul_comm] at hk2
  exact h _ _ (Nat.div_lt_of_lt_mul hk3) (Nat.mod_lt _ hcpos)

theorem dotLoop_congr {n : Nat} {f g : Nat → ℚ} (h : ∀ k, k < n → f k = g k) :
    dotLoop n f = dotLoop n g := by
  unfold dotLoop
  congr 1
  apply List.map_congr_left
  intro k hk
  exact h k (List.mem_range.mp hk)

/-- C2: matrixInverse returns false exactly when the input is non-square, has
dimension above 3, or has determinant magnitude below the safety epsilon; in
particular it fails on the singular matrix [[1,2],[2,4]]. -/
theorem C2_matrixInverse_failure (A B : Matrix_t) (hA : WellFormed A) :
    ((matrixInverse A B).1 = false ↔
      A.numRows ≠ A.numCols ∨ 3 < A.numRows ∨ |matrixDet A| < MATRIX_EPS) ∧
    matrixInverse ⟨2, 2, [1, 2, 2, 4]⟩ ⟨2, 2, [0, 0, 0, 0]⟩ =
      (false, ⟨2, 2, [0, 0, 0, 0]⟩) := by
  constructor
  · simp only [matrixInverse]
    by_cases hsq : A.numRows = A.numCols
    · by_cases hpos : 1 ≤ A.numRows
      · by_cases hle : A.numRows ≤ 3
        · rw [if_pos ⟨hsq, hpos, hle⟩]
          by_cases hdet : MATRIX_EPS ≤ |matrixDet A|
          · rw [if_pos hdet]
            refine iff_of_false (by simp) ?_
            rintro (h | h | h)
            · exact h hsq
            · omega
            · exact absurd hdet (not_le.mpr h)
          · rw [if_neg hdet]
            exact iff_of_true rfl (Or.inr (Or.inr (not_le.mp hdet)))
        · rw [if_neg (by tauto)]
          exact iff_of_true rfl (Or.inr (Or.inl (by omega)))
      · rw [if_neg (by tauto)]
        have hr0 : A.numRows = 0 := by omega
        have hc0 : A.numCols = 0 := by omega
        have hd : A.data = [] := by
          have hlen := hA
          unfold WellFormed at hlen
          rw [hr0, Nat.zero_mul] at hlen
          exact List.eq_nil_of_length_eq_zero hlen
        have hdet : matrixDet A = 0 := by
          simp [matrixDet, matrixGet, hd, hr0]
        refine iff_of_true rfl (Or.inr (Or.inr ?_))
        rw [hdet]
        norm_num [MATRIX_EPS]
    · rw [if_neg (by tauto)]
      exact iff_of_true rfl (Or.inl hsq)
  · norm_num [matrixInverse, matrixDet, matrixGet, MATRIX_EPS]

/-- C2 witness: a non-square input fails, and the concrete singular matrix
fails leaving the destination unchanged. -/
theorem C2_matrixInverse_failure_witness :
    (matrixInverse ⟨2, 3, [1, 2, 3, 4, 5, 6]⟩ ⟨2, 2, [0, 0, 0, 0]⟩).1 = false ∧
    matrixInverse ⟨2, 2, [1, 2, 2, 4]⟩ ⟨2, 2, [0, 0, 0, 0]⟩ =
      (false, ⟨2, 2, [0, 0, 0, 0]⟩) :=
  ⟨((C2_matrixInverse_failure ⟨2, 3, [1, 2, 3, 4, 5, 6]⟩ ⟨2, 2, [0, 0, 0, 0]⟩ rfl).1).mpr
      (Or.inl (by decide)),
   (C2_matrixInverse_failure ⟨2, 3, [1, 2, 3, 4, 5, 6]⟩ ⟨2, 2, [0, 0, 0, 0]⟩ rfl).2⟩

/-- C10: on matching dimensions matrixAddEquals succeeds and leaves its first
argument exactly equal to the matrix matrixAdd writes into a same-shaped
destination; on mismatched dimensions both operations fail. -/
theorem C10_addEquals_refines_add (A B C : Matrix_t) :
    (A.numRows = B.numRows ∧ A.numCols = B.numCols →
      C.numRows = A.numRows → C.numCols = A.numCols →
      (matrixAddEquals A B).1 = true ∧ (matrixAdd A B C).1 = true ∧
      (matrixAddEquals A B).2 = (matrixAdd A B C).2) ∧
    (¬(A.numRows = B.numRows ∧ A.numCols = B.numCols) →
      (matrixAddEquals A B).1 = false ∧ (matrixAdd A B C).1 = false) := by
  constructor
  · intro hAB hCr hCc
    obtain ⟨h1, h2⟩ := hAB
    obtain ⟨ar, ac, ad⟩ := A
    obtain ⟨cr, cc, cd⟩ := C
    simp only at h1 h2 hCr hCc
    subst hCr
    subst hCc
    refine ⟨?_, ?_, ?_⟩
    · simp only [matrixAddEquals]
      split
      · rfl
      · next hno => exact absurd ⟨h1, h2⟩ hno
    · simp only [matrixAdd]
      split
      · rfl
      · next hno => exact absurd ⟨h1, h2, trivial, trivial⟩ hno
    · simp only [matrixAddEquals, matrixAdd]
      split
      · split
        · rfl
        · next hno => exact absurd ⟨h1, h2, trivial, trivial⟩ hno
      · next hno => exact absurd ⟨h1, h2⟩ hno
  · intro h
    have h4 : ¬(A.numRows = B.numRows ∧ A.numCols = B.numCols ∧
        C.numRows = A.numRows ∧ C.numCols = A.numCols) := by tauto
    constructor
    · simp only [matrixAddEquals]
      rw [if_neg h]
    · simp only [matrixAdd]
      rw [if_neg h4]

/-- C10 witness at concrete matched and mismatched shapes. -/
theorem C10_addEquals_refines_add_witness :
    ((matrixAddEquals ⟨2, 2, [1, 2, 3, 4]⟩ ⟨2, 2, [5, 6, 7, 8]⟩).1 = true ∧
      (matrixAdd ⟨2, 2, [1, 2, 3, 4]⟩ ⟨2, 2, [5, 6, 7, 8]⟩ ⟨2, 2, [0, 0, 0, 0]⟩).1 = true ∧
      (matrixAddEquals ⟨2, 2, [1, 2, 3, 4]⟩ ⟨2, 2, [5, 6, 7, 8]⟩).2 =
        (matrixAdd ⟨2, 2, [1, 2, 3, 4]⟩ ⟨2, 2, [5, 6, 7, 8]⟩ ⟨2, 2, [0, 0, 0, 0]⟩).2) ∧
    ((matrixAddEquals ⟨2, 2, [1, 2, 3, 4]⟩ ⟨1, 2, [5, 6]⟩).1 = false ∧
      (matrixAdd ⟨2, 2, [1, 2, 3, 4]⟩ ⟨1, 2, [5, 6]⟩ ⟨2, 2, [0, 0, 0, 0]⟩).1 = false) :=
  ⟨(C10_addEquals_refines_add ⟨2, 2, [1, 2, 3, 4]⟩ ⟨2, 2, [5, 6, 7, 8]⟩
      ⟨2, 2, [0, 0, 0, 0]⟩).1 (by decide) (by decide) (by decide),
   (C10_addEquals_refines_add ⟨2, 2, [1, 2, 3, 4]⟩ ⟨1, 2, [5, 6]⟩
      ⟨2, 2, [0, 0, 0, 0]⟩).2 (by decide)⟩

theorem matrixGet_mk (rows cols : Nat) (f : Nat → Nat → ℚ) (r c : Nat)
    (hr : r < rows) (hc : c < cols) :
    matrixGet ⟨rows, cols, mkData rows cols f⟩ r c = f r c := by
  simpa [matrixGet] using mkData_getD rows cols f r c hr hc

/-- C5: on compatible dimensions matrixMultiplyTransA succeeds and computes
exactly what matrixMultiply computes from the materialized transpose of A, and
matrixMultiplyTransB succeeds and computes exactly matrixMultiply against the
materialized transpose of B. -/
theorem C5_multiplyTrans_equiv (A B C : Matrix_t) :
    (A.numRows = B.numRows → C.numRows = A.numCols → C.numCols = B.numCols →
      (matrixMultiplyTransA A B C).1 = true ∧
      (matrixMultiplyTransA A B C).2 =
        (matrixMultiply (matrixTranspose A ⟨A.numCols, A.numRows, []⟩).2 B C).2) ∧
    (A.numCols = B.numCols → C.numRows = A.numRows → C.numCols = B.numRows →
      (matrixMultiplyTransB A B C).1 = true ∧
      (matrixMultiplyTransB A B C).2 =
        (matrixMultiply A (matrixTranspose B ⟨B.numCols, B.numRows, []⟩).2 C).2) := by
  constructor
  · intro h1 h2 h3
    have hAT : (matrixTranspose A ⟨A.numCols, A.numRows, []⟩).2 =
        ⟨A.numCols, A.numRows, mkData A.numCols A.numRows (fun r c => matrixGet A c r)⟩ := by
      simp only [matrixTranspose]
      split
      · rfl
      · next hno => exact absurd ⟨trivial, trivial⟩ hno
    constructor
    · simp only [matrixMultiplyTransA]
      split
      · rfl
      · next hno => exact absurd ⟨h1, h2, h3⟩ hno
    · rw [hAT]
      simp only [matrixMultiplyTransA, matrixMultiply]
      split
      · next hg1 =>
        refine congrArg Prod.snd (congrArg (Prod.mk true) ?_)
        congr 1
        apply mkData_congr
        intro i j hi hj
        apply dotLoop_congr
        intro k hk
        have hget : matrixGet
            ⟨A.numCols, A.numRows, mkData A.numCols A.numRows (fun r c => matrixGet A c r)⟩
            i k = matrixGet A k i :=
          matrixGet_mk A.numCols A.numRows _ i k (h2 ▸ hi) hk
        rw [hget]
      · next hno => exact absurd ⟨h1, h2, h3⟩ hno
  · intro h1 h2 h3
    have hBT : (matrixTranspose B ⟨B.numCols, B.numRows, []⟩).2 =
        ⟨B.numCols, B.numRows, mkData B.numCols B.numRows (fun r c => matrixGet B c r)⟩ := by
      simp only [matrixTranspose]
      split
      · rfl
      · next hno => exact absurd ⟨trivial, trivial⟩ hno
    constructor
    · simp only [matrixMultiplyTransB]
      split
      · rfl
      · next hno => exact absurd ⟨h1, h2, h3⟩ hno
    · rw [hBT]
      simp only [matrixMultiplyTransB, matrixMultiply]
      split
      · next hg1 =>
        refine congrArg Prod.snd (congrArg (Prod.mk true) ?_)
        congr 1
        apply mkData_congr
        intro i j hi hj
        apply dotLoop_congr
        intro k hk
        have hget : matrixGet
            ⟨B.numCols, B.numRows, mkData B.numCols B.numRows (fun r c => matrixGet B c r)⟩
            k j = matrixGet B j k :=
          matrixGet_mk B.numCols B.numRows _ k j (h1 ▸ hk) (h3 ▸ hj)
        rw [hget]
      · next hno => exact absurd ⟨h1, h2, h3⟩ hno

/-- C5 witness at concrete shapes for both transpose-multiply variants. -/
theorem C5_multiplyTrans_equiv_witness :
    ((matrixMultiplyTransA ⟨2, 3, [1, 2, 3, 4, 5, 6]⟩ ⟨2, 2, [1, 0, 0, 1]⟩
        ⟨3, 2, [0, 0, 0, 0, 0, 0]⟩).1 = true ∧
      (matrixMultiplyTransA ⟨2, 3, [1, 2, 3, 4, 5, 6]⟩ ⟨2, 2, [1, 0, 0, 1]⟩
        ⟨3, 2, [0, 0, 0, 0, 0, 0]⟩).2 =
        (matrixMultiply (matrixTranspose ⟨2, 3, [1, 2, 3, 4, 5, 6]⟩ ⟨3, 2, []⟩).2
          ⟨2, 2, [1, 0, 0, 1]⟩ ⟨3, 2, [0, 0, 0, 0, 0, 0]⟩).2) ∧
    ((matrixMultiplyTransB ⟨2, 3, [1, 2, 3, 4, 5, 6]⟩ ⟨4, 3, [1, 0, 0, 0, 1, 0, 0, 0, 1, 1, 1, 1]⟩
        ⟨2, 4, [0, 0, 0, 0, 0, 0, 0, 0]⟩).1 = true ∧
      (matrixMultiplyTransB ⟨2, 3, [1, 2, 3, 4, 5, 6]⟩
        ⟨4, 3, [1, 0, 0, 0, 1, 0, 0, 0, 1, 1, 1, 1]⟩ ⟨2, 4, [0, 0, 0, 0, 0, 0, 0, 0]⟩).2 =
        (matrixMultiply ⟨2, 3, [1, 2, 3, 4, 5, 6]⟩
          (matrixTranspose ⟨4, 3, [1, 0, 0, 0, 1, 0, 0, 0, 1, 1, 1, 1]⟩ ⟨3, 4, []⟩).2
          ⟨2, 4, [0, 0, 0, 0, 0, 0, 0, 0]⟩).2) :=
  ⟨(C5_multiplyTrans_equiv ⟨2, 3, [1, 2, 3, 4, 5, 6]⟩ ⟨2, 2, [1, 0, 0, 1]⟩
      ⟨3, 2, [0, 0, 0, 0, 0, 0]⟩).1 rfl rfl rfl,
   (C5_multiplyTrans_equiv ⟨2, 3, [1, 2, 3, 4, 5, 6]⟩
      ⟨4, 3, [1, 0, 0, 0, 1, 0, 0, 0, 1, 1, 1, 1]⟩ ⟨2, 4, [0, 0, 0, 0, 0, 0, 0, 0]⟩).2
      rfl rfl rfl⟩

/-- C1: for square matrices of dimension 1, 2, or 3 whose determinant magnitude
is at least the safety epsilon, matrixInverse returns true and writes the
closed-form inverse into the same-shaped output: the reciprocal for 1x1, the
adjugate scaled by the reciprocal of a*d - b*c for 2x2, and the closed-form
adjugate divided by the determinant for 3x3; in particular on [[1,2],[3,4]] it
succeeds with [[-2,1],[3/2,-1/2]]. -/
theorem C1_matrixInverse_formulas :
    (∀ (a : ℚ) (B : Matrix_t), B.numRows = 1 → B.numCols = 1 →
      MATRIX_EPS ≤ |a| →
      matrixInverse ⟨1, 1, [a]⟩ B = (true, ⟨1, 1, [1 / a]⟩)) ∧
    (∀ (a b c d : ℚ) (B : Matrix_t), B.numRows = 2 → B.numCols = 2 →
      MATRIX_EPS ≤ |a * d - b * c| →
      matrixInverse ⟨2, 2, [a, b, c, d]⟩ B =
        (true, ⟨2, 2, [d / (a * d - b * c), -b / (a * d - b * c),
          -c / (a * d - b * c), a / (a * d - b * c)]⟩)) ∧
    (∀ (a b c d e f g h i : ℚ) (B : Matrix_t), B.numRows = 3 → B.numCols = 3 →
      MATRIX_EPS ≤ |a * (e * i - f * h) - b * (d * i - f * g) + c * (d * h - e * g)| →
      matrixInverse ⟨3, 3, [a, b, c, d, e, f, g, h, i]⟩ B =
        (true, ⟨3, 3,
          [(e * i - f * h) / (a * (e * i - f * h) - b * (d * i - f * g) + c * (d * h - e * g)),
           -(b * i - c * h) / (a * (e * i - f * h) - b * (d * i - f * g) + c * (d * h - e * g)),
           (b * f - c * e) / (a * (e * i - f * h) - b * (d * i - f * g) + c * (d * h - e * g)),
           -(d * i - f * g) / (a * (e * i - f * h) - b * (d * i - f * g) + c * (d * h - e * g)),
           (a * i - c * g) / (a * (e * i - f * h) - b * (d * i - f * g) + c * (d * h - e * g)),
           -(a * f - c * d) / (a * (e * i - f * h) - b * (d * i - f * g) + c * (d * h - e * g)),
           (d * h - e * g) / (a * (e * i - f * h) - b * (d * i - f * g) + c * (d * h - e * g)),
           -(a * h - b * g) / (a * (e * i - f * h) - b * (d * i - f * g) + c * (d * h - e * g)),
           (a * e - b * d) / (a * (e * i - f * h) - b * (d * i - f * g) + c * (d * h - e * g))]⟩)) ∧
    matrixInverse ⟨2, 2, [1, 2, 3, 4]⟩ ⟨2, 2, [0, 0, 0, 0]⟩ =
      (true, ⟨2, 2, [-2, 1, 3 / 2, -1 / 2]⟩) := by
  refine ⟨?_, ?_, ?_, ?_⟩
  · intro a B hr hc hdet
    obtain ⟨br, bc, bd⟩ := B
    simp only at hr hc
    subst hr
    subst hc
    have hd : matrixDet ⟨1, 1, [a]⟩ = a := by
      norm_num [matrixDet, matrixGet]
    simp only [matrixInverse, hd]
    rw [if_pos (by norm_num), if_pos hdet]
    norm_num [mkData, List.range_succ, invEntry, matrixGet]
  · intro a b c d B hr hc hdet
    obtain ⟨br, bc, bd⟩ := B
    simp only at hr hc
    subst hr
    subst hc
    have hd : matrixDet ⟨2, 2, [a, b, c, d]⟩ = a * d - b * c := by
      norm_num [matrixDet, matrixGet]
    simp only [matrixInverse, hd]
    rw [if_pos (by norm_num), if_pos hdet]
    norm_num [mkData, List.range_succ, invEntry, matrixGet]
  · intro a b c d e f g h i B hr hc hdet
    obtain ⟨br, bc, bd⟩ := B
    simp only at hr hc
    subst hr
    subst hc
    have hd : matrixDet ⟨3, 3, [a, b, c, d, e, f, g, h, i]⟩ =
        a * (e * i - f * h) - b * (d * i - f * g) + c * (d * h - e * g) := by
      norm_num [matrixDet, matrixGet]
    simp only [matrixInverse, hd]
    rw [if_pos (by norm_num), if_pos hdet]
    norm_num [mkData, List.range_succ, invEntry, cofactor3, minorIdx, matrixGet]
  · norm_num [matrixInverse, matrixDet, matrixGet, MATRIX_EPS, mkData, List.range_succ,
      invEntry]

/-- C1 witness at concrete inputs for each dimension. -/
theorem C1_matrixInverse_formulas_witness :
    matrixInverse ⟨1, 1, [2]⟩ ⟨1, 1, [0]⟩ = (true, ⟨1, 1, [1 / 2]⟩) ∧
    matrixInverse ⟨2, 2, [1, 2, 3, 4]⟩ ⟨2, 2, [0, 0, 0, 0]⟩ =
      (true, ⟨2, 2, [4 / (1 * 4 - 2 * 3), -2 / (1 * 4 - 2 * 3),
        -3 / (1 * 4 - 2 * 3), 1 / (1 * 4 - 2 * 3)]⟩) ∧
    matrixInverse ⟨3, 3, [1, 0, 0, 0, 1, 0, 0, 0, 1]⟩ ⟨3, 3, [0, 0, 0, 0, 0, 0, 0, 0, 0]⟩ =
      (true, ⟨3, 3,
        [(1 * 1 - 0 * 0) / (1 * (1 * 1 - 0 * 0) - 0 * (0 * 1 - 0 * 0) + 0 * (0 * 0 - 1 * 0)),
         -(0 * 1 - 0 * 0) / (1 * (1 * 1 - 0 * 0) - 0 * (0 * 1 - 0 * 0) + 0 * (0 * 0 - 1 * 0)),
         (0 * 0 - 0 * 1) / (1 * (1 * 1 - 0 * 0) - 0 * (0 * 1 - 0 * 0) + 0 * (0 * 0 - 1 * 0)),
         -(0 * 1 - 0 * 0) / (1 * (1 * 1 - 0 * 0) - 0 * (0 * 1 - 0 * 0) + 0 * (0 * 0 - 1 * 0)),
         (1 * 1 - 0 * 0) / (1 * (1 * 1 - 0 * 0) - 0 * (0 * 1 - 0 * 0) + 0 * (0 * 0 - 1 * 0)),
         -(1 * 0 - 0 * 0) / (1 * (1 * 1 - 0 * 0) - 0 * (0 * 1 - 0 * 0) + 0 * (0 * 0 - 1 * 0)),
         (0 * 0 - 1 * 0) / (1 * (1 * 1 - 0 * 0) - 0 * (0 * 1 - 0 * 0) + 0 * (0 * 0 - 1 * 0)),
         -(1 * 0 - 0 * 0) / (1 * (1 * 1 - 0 * 0) - 0 * (0 * 1 - 0 * 0) + 0 * (0 * 0 - 1 * 0)),
         (1 * 1 - 0 * 0) / (1 * (1 * 1 - 0 * 0) - 0 * (0 * 1 - 0 * 0) + 0 * (0 * 0 - 1 * 0))]⟩) :=
  ⟨C1_matrixInverse_formulas.1 2 ⟨1, 1, [0]⟩ rfl rfl (by norm_num [MATRIX_EPS]),
   C1_matrixInverse_formulas.2.1 1 2 3 4 ⟨2, 2, [0, 0, 0, 0]⟩ rfl rfl
     (by norm_num [MATRIX_EPS]),
   C1_matrixInverse_formulas.2.2.1 1 0 0 0 1 0 0 0 1 ⟨3, 3, [0, 0, 0, 0, 0, 0, 0, 0, 0]⟩
     rfl rfl (by norm_num [MATRIX_EPS])⟩

theorem exists_len1 (l : List ℚ) (h : l.length = 1) : ∃ a, l = [a] := by
  rcases l with _ | ⟨a, l⟩
  · simp at h
  rcases l with _ | ⟨e, l⟩
  · exact ⟨a, rfl⟩
  · simp at h

theorem exists_len4 (l : List ℚ) (h : l.length = 4) : ∃ a b c d, l = [a, b, c, d] := by
  rcases l with _ | ⟨a, l⟩
  · simp at h
  rcases l with _ | ⟨b, l⟩
  · simp at h
  rcases l with _ | ⟨c, l⟩
  · simp at h
  rcases l with _ | ⟨d, l⟩
  · simp at h
  rcases l with _ | ⟨e, l⟩
  · exact ⟨a, b, c, d, rfl⟩
  · simp at h

theorem exists_len9 (l : List ℚ) (h : l.length = 9) :
    ∃ a b c d e f g h2 i, l = [a, b, c, d, e, f, g, h2, i] := by
  rcases l with _ | ⟨a, l⟩
  · simp at h
  rcases l with _ | ⟨b, l⟩
  · simp at h
  rcases l with _ | ⟨c, l⟩
  · simp at h
  rcases l with _ | ⟨d, l⟩
  · simp at h
  rcases l with _ | ⟨e, l⟩
  · simp at h
  rcases l with _ | ⟨f, l⟩
  · simp at h
  rcases l with _ | ⟨g, l⟩
  · simp at h
  rcases l with _ | ⟨h2, l⟩
  · simp at h
  rcases l with _ | ⟨i, l⟩
  · simp at h
  rcases l with _ | ⟨j, l⟩
  · exact ⟨a, b, c, d, e, f, g, h2, i, rfl⟩
  · simp at h

set_option maxHeartbeats 2000000 in
/-- C3: for a well-formed square matrix of dimension 1, 2 or 3 whose
determinant magnitude is at least the safety epsilon, inverting into B and
multiplying A by the inverse into C yields exactly the identity matrix, and
testForIdentity on that product is 0. -/
theorem C3_inverse_roundtrip (A B C : Matrix_t) (hA : WellFormed A)
    (hsq : A.numCols = A.numRows)
    (hdim : A.numRows = 1 ∨ A.numRows = 2 ∨ A.numRows = 3)
    (hdet : MATRIX_EPS ≤ |matrixDet A|)
    (hBr : B.numRows = A.numRows) (hBc : B.numCols = A.numRows)
    (hCr : C.numRows = A.numRows) (hCc : C.numCols = A.numRows) :
    (matrixInverse A B).1 = true ∧
    (matrixMultiply A (matrixInverse A B).2 C).1 = true ∧
    (matrixMultiply A (matrixInverse A B).2 C).2 = matrixSetIdentity C ∧
    testForIdentity (matrixMultiply A (matrixInverse A B).2 C).2 = 0 := by
  obtain ⟨ar, ac, ad⟩ := A
  obtain ⟨br, bc2, bd⟩ := B
  obtain ⟨cr, cc, cd⟩ := C
  simp only at hsq hBr hBc hCr hCc
  subst hsq
  subst hBr
  subst hBc
  subst hCr
  subst hCc
  unfold WellFormed at hA
  simp only at hA hdim
  rcases hdim with hn | hn | hn
  all_goals subst hn
  · -- dimension 1
    norm_num at hA
    obtain ⟨a, rfl⟩ := exists_len1 ad hA
    have hd : matrixDet ⟨1, 1, [a]⟩ = a := by
      norm_num [matrixDet, matrixGet]
    rw [hd] at hdet
    have hD : a ≠ 0 := by
      intro h0
      rw [h0] at hdet
      norm_num [MATRIX_EPS] at hdet
    have hinv : matrixInverse ⟨1, 1, [a]⟩ ⟨1, 1, bd⟩ = (true, ⟨1, 1, [1 / a]⟩) := by
      simp only [matrixInverse, hd]
      rw [if_pos (by norm_num), if_pos hdet]
      norm_num [mkData, List.range_succ, invEntry, matrixGet]
    rw [hinv]
    have hprod : (matrixMultiply ⟨1, 1, [a]⟩ ⟨1, 1, [1 / a]⟩ ⟨1, 1, cd⟩).2 =
        matrixSetIdentity ⟨1, 1, cd⟩ := by
      simp only [matrixMultiply, matrixSetIdentity]
      rw [if_pos (by norm_num)]
      show (⟨1, 1, _⟩ : Matrix_t) = ⟨1, 1, _⟩
      congr 1
      apply mkData_congr
      intro i j hi hj
      interval_cases i <;> interval_cases j <;>
        (norm_num [dotLoop, List.range_succ, matrixGet]; field_simp)
    refine ⟨rfl, ?_, hprod, ?_⟩
    · norm_num [matrixMultiply]
    · rw [hprod]
      norm_num [testForIdentity, matrixSetIdentity, matrixGet, mkData, List.range_succ]
  · -- dimension 2
    norm_num at hA
    obtain ⟨a, b, c, d, rfl⟩ := exists_len4 ad hA
    have hd : matrixDet ⟨2, 2, [a, b, c, d]⟩ = a * d - b * c := by
      norm_num [matrixDet, matrixGet]
    rw [hd] at hdet
    have hD : a * d - b * c ≠ 0 := by
      intro h0
      rw [h0] at hdet
      norm_num [MATRIX_EPS] at hdet
    have hinv : matrixInverse ⟨2, 2, [a, b, c, d]⟩ ⟨2, 2, bd⟩ =
        (true, ⟨2, 2, [d / (a * d - b * c), -b / (a * d - b * c),
          -c / (a * d - b * c), a / (a * d - b * c)]⟩) := by
      simp only [matrixInverse, hd]
      rw [if_pos (by norm_num), if_pos hdet]
      norm_num [mkData, List.range_succ, invEntry, matrixGet]
    rw [hinv]
    have hprod : (matrixMultiply ⟨2, 2, [a, b, c, d]⟩
        ⟨2, 2, [d / (a * d - b * c), -b / (a * d - b * c),
          -c / (a * d - b * c), a / (a * d - b * c)]⟩ ⟨2, 2, cd⟩).2 =
        matrixSetIdentity ⟨2, 2, cd⟩ := by
      simp only [matrixMultiply, matrixSetIdentity]
      rw [if_pos (by norm_num)]
      show (⟨2, 2, _⟩ : Matrix_t) = ⟨2, 2, _⟩
      congr 1
      apply mkData_congr
      intro i j hi hj
      interval_cases i <;> interval_cases j <;>
        (norm_num [dotLoop, List.range_succ, matrixGet]; field_simp; ring)
    refine ⟨rfl, ?_, hprod, ?_⟩
    · norm_num [matrixMultiply]
    · rw [hprod]
      norm_num [testForIdentity, matrixSetIdentity, matrixGet, mkData, List.range_succ]
  · -- dimension 3
    norm_num at hA
    obtain ⟨a, b, c, d, e, f, g, h2, i, rfl⟩ := exists_len9 ad hA
    have hd : matrixDet ⟨3, 3, [a, b, c, d, e, f, g, h2, i]⟩ =
        a * (e * i - f * h2) - b * (d * i - f * g) + c * (d * h2 - e * g) := by
      norm_num [matrixDet, matrixGet]
    rw [hd] at hdet
    have hD : a * (e * i - f * h2) - b * (d * i - f * g) + c * (d * h2 - e * g) ≠ 0 := by
      intro h0
      rw [h0] at hdet
      norm_num [MATRIX_EPS] at hdet
    have hinv : matrixInverse ⟨3, 3, [a, b, c, d, e, f, g, h2, i]⟩ ⟨3, 3, bd⟩ =
        (true, ⟨3, 3,
          [(e * i - f * h2) /
              (a * (e * i - f * h2) - b * (d * i - f * g) + c * (d * h2 - e * g)),
           -(b * i - c * h2) /
              (a * (e * i - f * h2) - b * (d * i - f * g) + c * (d * h2 - e * g)),
           (b * f - c * e) /
              (a * (e * i - f * h2) - b * (d * i - f * g) + c * (d * h2 - e * g)),
           -(d * i - f * g) /
              (a * (e * i - f * h2) - b * (d * i - f * g) + c * (d * h2 - e * g)),
           (a * i - c * g) /
              (a * (e * i - f * h2) - b * (d * i - f * g) + c * (d * h2 - e * g)),
           -(a * f - c * d) /
              (a * (e * i - f * h2) - b * (d * i - f * g) + c * (d * h2 - e * g)),
           (d * h2 - e * g) /
              (a * (e * i - f * h2) - b * (d * i - f * g) + c * (d * h2 - e * g)),
           -(a * h2 - b * g) /
              (a * (e * i - f * h2) - b * (d * i - f * g) + c * (d * h2 - e * g)),
           (a * e - b * d) /
              (a * (e * i - f * h2) - b * (d * i - f * g) + c * (d * h2 - e * g))]⟩) := by
      simp only [matrixInverse, hd]
      rw [if_pos (by norm_num), if_pos hdet]
      norm_num [mkData, List.range_succ, invEntry, cofactor3, minorIdx, matrixGet]
    rw [hinv]
    have hprod : (matrixMultiply ⟨3, 3, [a, b, c, d, e, f, g, h2, i]⟩
        ⟨3, 3,
          [(e * i - f * h2) /
              (a * (e * i - f * h2) - b * (d * i - f * g) + c * (d * h2 - e * g)),
           -(b * i - c * h2) /
              (a * (e * i - f * h2) - b * (d * i - f * g) + c * (d * h2 - e * g)),
           (b * f - c * e) /
              (a * (e * i - f * h2) - b * (d * i - f * g) + c * (d * h2 - e * g)),
           -(d * i - f * g) /
              (a * (e * i - f * h2) - b * (d * i - f * g) + c * (d * h2 - e * g)),
           (a * i - c * g) /
              (a * (e * i - f * h2) - b * (d * i - f * g) + c * (d * h2 - e * g)),
           -(a * f - c * d) /
              (a * (e * i - f * h2) - b * (d * i - f * g) + c * (d * h2 - e * g)),
           (d * h2 - e * g) /
              (a * (e * i - f * h2) - b * (d * i - f * g) + c * (d * h2 - e * g)),
           -(a * h2 - b * g) /
              (a * (e * i - f * h2) - b * (d * i - f * g) + c * (d * h2 - e * g)),
           (a * e - b * d) /
              (a * (e * i - f * h2) - b * (d * i - f * g) + c * (d * h2 - e * g))]⟩
        ⟨3, 3, cd⟩).2 = matrixSetIdentity ⟨3, 3, cd⟩ := by
      simp only [matrixMultiply, matrixSetIdentity]
      rw [if_pos (by norm_num)]
      show (⟨3, 3, _⟩ : Matrix_t) = ⟨3, 3, _⟩
      congr 1
      apply mkData_congr
      intro i2 j hi hj
      interval_cases i2 <;> interval_cases j <;>
        (norm_num [dotLoop, List.range_succ, matrixGet, ← mul_div_assoc, div_add_div_same]
         first
         | (rw [div_eq_iff hD]; ring)
         | (left; ring)
         | ring)
    refine ⟨rfl, ?_, hprod, ?_⟩
    · norm_num [matrixMultiply]
    · rw [hprod]
      norm_num [testForIdentity, matrixSetIdentity, matrixGet, mkData, List.range_succ]

/-- C3 witness at the concrete invertible matrix [[1,2],[3,4]]. -/
theorem C3_inverse_roundtrip_witness :
    (matrixInverse ⟨2, 2, [1, 2, 3, 4]⟩ ⟨2, 2, [0, 0, 0, 0]⟩).1 = true ∧
    (matrixMultiply ⟨2, 2, [1, 2, 3, 4]⟩
      (matrixInverse ⟨2, 2, [1, 2, 3, 4]⟩ ⟨2, 2, [0, 0, 0, 0]⟩).2
      ⟨2, 2, [0, 0, 0, 0]⟩).1 = true ∧
    (matrixMultiply ⟨2, 2, [1, 2, 3, 4]⟩
      (matrixInverse ⟨2, 2, [1, 2, 3, 4]⟩ ⟨2, 2, [0, 0, 0, 0]⟩).2
      ⟨2, 2, [0, 0, 0, 0]⟩).2 = matrixSetIdentity ⟨2, 2, [0, 0, 0, 0]⟩ ∧
    testForIdentity (matrixMultiply ⟨2, 2, [1, 2, 3, 4]⟩
      (matrixInverse ⟨2, 2, [1, 2, 3, 4]⟩ ⟨2, 2, [0, 0, 0, 0]⟩).2
      ⟨2, 2, [0, 0, 0, 0]⟩).2 = 0 :=
  C3_inverse_roundtrip ⟨2, 2, [1, 2, 3, 4]⟩ ⟨2, 2, [0, 0, 0, 0]⟩ ⟨2, 2, [0, 0, 0, 0]⟩
    rfl rfl (Or.inr (Or.inl rfl))
    (by norm_num [matrixDet, matrixGet, MATRIX_EPS]) rfl rfl rfl rfl
